import Mathlib

/-
Shallow embedding of the replay manager of `job/replay_manager.go`
(package `job` of the optimus repository).

The manager accepts replay requests, validates them against the
currently active replay records, persists an accepted record and
hands the request to a pool of workers over a non-blocking queue.
External collaborators (the uuid provider, the replay-spec
repository obtained from a factory, the dependency-tree builder
`prepareTree`, and the channel readiness of the worker pool) are
modelled as an explicit environment, and the side effects of one
call to `Replay` (records inserted into the repository, ids put
into the request map, requests handed to the queue, the mutation
of the caller-supplied request) are modelled by explicit state
passing.
-/

namespace Optimus

/-- Model of `uuid.UUID`. The zero value (the state of a freshly
constructed request whose `ID` field was never assigned) is `nilUUID`. -/
structure UUID where
  val : Nat
deriving DecidableEq, Repr

/-- The zero `uuid.UUID`, i.e. an unset request id. -/
def nilUUID : UUID := ⟨0⟩

/-- Model of `uuid.UUID.String()`. -/
def UUID.str (u : UUID) : String := toString u.val

/-- Model of `models.JobSpec`; the replay manager only ever consults
its name. -/
structure JobSpec where
  name : String
deriving DecidableEq, Repr

/-- Model of `tree.TreeNode` as consumed by the conflict check:
`name` models `Data.GetName()`, `runs` models `Runs.Values()`
(the scheduled run instants, as integer timestamps). -/
structure TreeNode where
  name : String
  runs : List Int
deriving DecidableEq, Repr

/-- Model of the tree returned by `prepareTree`; the manager only
calls `GetAllNodes` on it. -/
structure ReplayTree where
  nodes : List TreeNode
deriving DecidableEq, Repr

/-- `tree.MultiRootTree.GetAllNodes()`. -/
def ReplayTree.GetAllNodes (t : ReplayTree) : List TreeNode := t.nodes

/-- Model of the `models.ReplayStatus*` string constants. -/
inductive ReplayStatus
  | accepted
  | inProgress
  | success
  | failed
deriving DecidableEq, Repr

/-- The Go error values the replay manager distinguishes:
`errors.New("conflict msg")`, `store.ErrResourceNotFound`,
`ErrRequestQueueFull`, and arbitrary other collaborator errors
(tagged by a numeric code). -/
inductive RError
  | conflictMsg
  | resourceNotFound
  | requestQueueFull
  | otherErr (code : Nat)
deriving DecidableEq, Repr

/-- Model of `models.ReplayWorkerRequest`. -/
structure ReplayWorkerRequest where
  ID : UUID
  Job : JobSpec
  Start : Int
  End : Int
  Project : String
  JobSpecMap : List (String × JobSpec)
deriving DecidableEq, Repr

/-- Model of `models.ReplaySpec`, the persisted replay record. -/
structure ReplaySpec where
  ID : UUID
  Job : JobSpec
  StartDate : Int
  EndDate : Int
  Status : ReplayStatus
deriving DecidableEq, Repr

/-
The conflict check, translated function by function from
`replay_manager.go`.
-/

/-- `checkAnyConflictedRuns`: scan the run instants of the active
node against those of the requested node; the first equal pair is a
conflict (`errors.New("conflict msg")`), otherwise nil. -/
def checkAnyConflictedRuns (activeNode reqNode : TreeNode) : Except RError Unit :=
  if activeNode.runs.any fun activeNodeRun =>
      reqNode.runs.any fun reqNodeRun => activeNodeRun = reqNodeRun
  then Except.error RError.conflictMsg
  else Except.ok ()

/-- Inner loop of `checkAnyConflictedDags` for one active node: the
Go code returns `checkAnyConflictedRuns` on the FIRST requested node
whose name matches, so later requested nodes are not examined. -/
def checkDagsForActiveNode (activeNode : TreeNode) (reqReplayNodes : List TreeNode) :
    Option (Except RError Unit) :=
  match reqReplayNodes with
  | [] => none
  | reqNode :: rest =>
    if activeNode.name = reqNode.name
    then some (checkAnyConflictedRuns activeNode reqNode)
    else checkDagsForActiveNode activeNode rest

/-- `checkAnyConflictedDags`: walk the active nodes; the first
name match between an active node and a requested node decides the
whole check (the Go `return` inside the nested loops). -/
def checkAnyConflictedDags (activeNodes reqReplayNodes : List TreeNode) :
    Except RError Unit :=
  match activeNodes with
  | [] => Except.ok ()
  | activeNode :: rest =>
    match checkDagsForActiveNode activeNode reqReplayNodes with
    | some r => r
    | none => checkAnyConflictedDags rest reqReplayNodes

/-- `validateReplayJobsConflict`: the Go loop body ends in an
unconditional `return`, so only the first active replay spec is ever
examined; its tree is rebuilt from the active record's id, job and
dates together with the incoming request's project and jobSpecMap. -/
def validateReplayJobsConflict
    (prepareTree : ReplayWorkerRequest → Except RError ReplayTree)
    (activeReplaySpecs : List ReplaySpec)
    (reqInput : ReplayWorkerRequest)
    (reqReplayNodes : List TreeNode) : Except RError Unit :=
  match activeReplaySpecs with
  | [] => Except.ok ()
  | activeSpec :: _ =>
    let activeReplayWorkerRequest : ReplayWorkerRequest :=
      { ID := activeSpec.ID
        Job := activeSpec.Job
        Start := activeSpec.StartDate
        End := activeSpec.EndDate
        Project := reqInput.Project
        JobSpecMap := reqInput.JobSpecMap }
    match prepareTree activeReplayWorkerRequest with
    | Except.error e => Except.error e
    | Except.ok activeTree =>
      checkAnyConflictedDags activeTree.GetAllNodes reqReplayNodes

/-- The external collaborators of one `Replay` call: `prepareTree`
(the dependency/run tree builder), the job-scoped replay-spec
repository (`GetByStatus` for queries, `insertResult` for the
outcome of `Insert`), the uuid provider, and whether a worker is
ready on the zero-capacity request channel at the instant of the
non-blocking send. -/
structure ReplayEnv where
  prepareTree : ReplayWorkerRequest → Except RError ReplayTree
  getByStatus : List ReplayStatus → Except RError (List ReplaySpec)
  insertResult : Option RError
  newUUID : Except RError UUID
  queueFree : Bool

/-- `validate`: build the request's tree, query the repository for
active (`InProgress` or `Accepted`) records — the store's
not-found signal counts as success — and run the conflict check. -/
def validate (env : ReplayEnv) (reqInput : ReplayWorkerRequest) : Except RError Unit :=
  match env.prepareTree reqInput with
  | Except.error e => Except.error e
  | Except.ok reqReplayTree =>
    let reqReplayNodes := reqReplayTree.GetAllNodes
    let statusToValidate := [ReplayStatus.inProgress, ReplayStatus.accepted]
    match env.getByStatus statusToValidate with
    | Except.error e =>
      if e = RError.resourceNotFound then Except.ok () else Except.error e
    | Except.ok activeReplaySpecs =>
      validateReplayJobsConflict env.prepareTree activeReplaySpecs reqInput reqReplayNodes

/-- `ReplayManagerConfig`. -/
structure ReplayManagerConfig where
  NumWorkers : Nat
  WorkerTimeout : Int
deriving DecidableEq, Repr

/-- State owned by (or observable through) one `Manager`: its
config, the number of spawned worker loops, the requests handed to
workers over `requestQ`, the request map, and the contents of the
replay-spec repository the manager inserts into. -/
structure Manager where
  config : ReplayManagerConfig
  workers : Nat
  requestQ : List ReplayWorkerRequest
  requestMap : List UUID
  store : List ReplaySpec
deriving Repr

/-- `Manager.Init`: spawn `NumWorkers` further worker loops. -/
def Manager.Init (m : Manager) : Manager :=
  { m with workers := m.workers + m.config.NumWorkers }

/-- `NewManager`: build the manager with an empty request map and a
zero-capacity request channel, and call `Init` before returning. -/
def NewManager (config : ReplayManagerConfig) : Manager :=
  Manager.Init
    { config := config
      workers := 0
      requestQ := []
      requestMap := []
      store := [] }

/-- `Manager.Replay`: validate, generate and assign a fresh id,
insert an `Accepted` record, then attempt the non-blocking send on
the request channel; on a free worker the id is also put into the
request map, otherwise `ErrRequestQueueFull` is returned with no
rollback.  The returned triple is (the Go return value, the new
state, the caller's request after the call — `Replay` mutates its
`ID` field through the pointer). -/
def Replay (env : ReplayEnv) (m : Manager) (reqInput : ReplayWorkerRequest) :
    Except RError String × Manager × ReplayWorkerRequest :=
  match validate env reqInput with
  | Except.error e => (Except.error e, m, reqInput)
  | Except.ok _ =>
    match env.newUUID with
    | Except.error e => (Except.error e, m, reqInput)
    | Except.ok uuidOb =>
      let reqInput' := { reqInput with ID := uuidOb }
      let replay : ReplaySpec :=
        { ID := uuidOb
          Job := reqInput'.Job
          StartDate := reqInput'.Start
          EndDate := reqInput'.End
          Status := ReplayStatus.accepted }
      match env.insertResult with
      | some e => (Except.error e, m, reqInput')
      | none =>
        let m' := { m with store := m.store ++ [replay] }
        if env.queueFree then
          (Except.ok reqInput'.ID.str,
           { m' with
              requestQ := m'.requestQ ++ [reqInput']
              requestMap := m'.requestMap ++ [reqInput'.ID] },
           reqInput')
        else
          (Except.error RError.requestQueueFull, m', reqInput')

/-
Concrete fixtures used by counterexamples and witnesses.
-/

/-- A demonstration tree builder: the tree of a request is the single
node of the requested job, whose only run instant is the request's
start date. -/
def ptDemo : ReplayWorkerRequest → Except RError ReplayTree := fun r =>
  Except.ok ⟨[⟨r.Job.name, [r.Start]⟩]⟩

/-- A demonstration request for job `x` over the range 1..2, with an
unset id. -/
def reqDemo : ReplayWorkerRequest :=
  { ID := nilUUID
    Job := ⟨"x"⟩
    Start := 1
    End := 2
    Project := "p"
    JobSpecMap := [] }

/-- A demonstration manager state with one spawned worker and empty
queue, map and store. -/
def mDemo : Manager :=
  { config := { NumWorkers := 1, WorkerTimeout := 5 }
    workers := 1
    requestQ := []
    requestMap := []
    store := [] }

/-- An environment in which the store holds one active replay of the
same job and range as `reqDemo`, so validation reports a conflict. -/
def envConflict : ReplayEnv :=
  { prepareTree := ptDemo
    getByStatus := fun _ =>
      Except.ok [{ ID := ⟨5⟩, Job := ⟨"x"⟩, StartDate := 1, EndDate := 2,
                   Status := ReplayStatus.accepted }]
    insertResult := none
    newUUID := Except.ok ⟨7⟩
    queueFree := true }

/-- An environment with no active replays (the store answers with its
not-found signal), a working uuid provider and insert, but no worker
ready on the request channel. -/
def envFull : ReplayEnv :=
  { prepareTree := ptDemo
    getByStatus := fun _ => Except.error RError.resourceNotFound
    insertResult := none
    newUUID := Except.ok ⟨7⟩
    queueFree := false }

/-- An environment with no active replays in which the repository
insert fails. -/
def envInsertFail : ReplayEnv :=
  { prepareTree := ptDemo
    getByStatus := fun _ => Except.error RError.resourceNotFound
    insertResult := some (RError.otherErr 3)
    newUUID := Except.ok ⟨7⟩
    queueFree := true }

/-- A tree builder distinguishing two jobs: job `a`'s tree is a
single node `a` with run instant 10; every other job's tree is a
single node `x` with run instant 1. -/
def ptTwoJobs : ReplayWorkerRequest → Except RError ReplayTree := fun r =>
  if r.Job.name = "a"
  then Except.ok ⟨[⟨"a", [10]⟩]⟩
  else Except.ok ⟨[⟨"x", [1]⟩]⟩

/-- An active record for job `a`, not overlapping the request below. -/
def specFirst : ReplaySpec :=
  { ID := ⟨21⟩, Job := ⟨"a"⟩, StartDate := 10, EndDate := 10,
    Status := ReplayStatus.accepted }

/-- An active record for job `x`, overlapping the request below on
run instant 1. -/
def specSecond : ReplaySpec :=
  { ID := ⟨22⟩, Job := ⟨"x"⟩, StartDate := 1, EndDate := 1,
    Status := ReplayStatus.inProgress }

/-- An environment whose store reports two active replays: first the
non-overlapping one for job `a`, then the overlapping one for job `x`. -/
def envTwoActive : ReplayEnv :=
  { prepareTree := ptTwoJobs
    getByStatus := fun _ => Except.ok [specFirst, specSecond]
    insertResult := none
    newUUID := Except.ok ⟨7⟩
    queueFree := true }

/-- A request for job `x` whose tree under `ptTwoJobs` is the single
node `x` with run instant 1. -/
def reqX : ReplayWorkerRequest :=
  { ID := nilUUID
    Job := ⟨"x"⟩
    Start := 1
    End := 1
    Project := "p"
    JobSpecMap := [] }

/-
Theorems.
-/

/-- Auxiliary: the nested scan of two run lists finds a pair of equal
instants exactly when the two lists share an element. -/
theorem any_shared_run_iff (xs ys : List Int) :
    (xs.any fun x => ys.any fun y => x = y) = true ↔ ∃ v, v ∈ xs ∧ v ∈ ys := by
  simp [List.any_eq_true]

/-- Claim C5: for a pair of nodes with the same job name,
`checkAnyConflictedRuns` reports a conflict if and only if the two
run-instance sets share at least one identical run instance, and it
succeeds if and only if they share none. -/
theorem checkAnyConflictedRuns_conflict_iff_shared_run (activeNode reqNode : TreeNode)
    (_hname : activeNode.name = reqNode.name) :
    (checkAnyConflictedRuns activeNode reqNode = Except.error RError.conflictMsg ↔
      ∃ v, v ∈ activeNode.runs ∧ v ∈ reqNode.runs) ∧
    (checkAnyConflictedRuns activeNode reqNode = Except.ok () ↔
      ¬∃ v, v ∈ activeNode.runs ∧ v ∈ reqNode.runs) := by
  unfold checkAnyConflictedRuns
  by_cases hc : ∃ v, v ∈ activeNode.runs ∧ v ∈ reqNode.runs
  · rw [if_pos ((any_shared_run_iff _ _).2 hc)]
    simp [hc]
  · rw [if_neg (fun h => hc ((any_shared_run_iff _ _).1 h))]
    simp [hc]

/-- Witness for C5: nodes for the same job with runs 1,2 and 2,3
share the instant 2 and are reported as a conflict. -/
theorem checkAnyConflictedRuns_conflict_iff_shared_run_witness :
    checkAnyConflictedRuns ⟨"x", [1, 2]⟩ ⟨"x", [2, 3]⟩ =
      Except.error RError.conflictMsg :=
  ((checkAnyConflictedRuns_conflict_iff_shared_run ⟨"x", [1, 2]⟩ ⟨"x", [2, 3]⟩ rfl).1).2
    ⟨2, by decide, by decide⟩

/-- Auxiliary: an active node with a name different from every
requested node's name produces no match in the inner loop. -/
theorem checkDagsForActiveNode_eq_none (activeNode : TreeNode) (reqNodes : List TreeNode)
    (h : ∀ r ∈ reqNodes, activeNode.name ≠ r.name) :
    checkDagsForActiveNode activeNode reqNodes = none := by
  induction reqNodes with
  | nil => rfl
  | cons r rest ih =>
    unfold checkDagsForActiveNode
    rw [if_neg (h r (by simp))]
    exact ih fun x hx => h x (by simp [hx])

/-- Claim C6: when the active tree and the requested tree share no
job name, `checkAnyConflictedDags` succeeds, whatever the run
instants (and hence whatever the date ranges) are. -/
theorem checkAnyConflictedDags_ok_of_disjoint_names (activeNodes reqReplayNodes : List TreeNode)
    (h : ∀ a ∈ activeNodes, ∀ r ∈ reqReplayNodes, a.name ≠ r.name) :
    checkAnyConflictedDags activeNodes reqReplayNodes = Except.ok () := by
  induction activeNodes with
  | nil => rfl
  | cons a rest ih =>
    unfold checkAnyConflictedDags
    rw [checkDagsForActiveNode_eq_none a reqReplayNodes (h a (by simp))]
    exact ih fun x hx => h x (by simp [hx])

/-- Witness for C6: a one-node tree for job `a` and a one-node tree
for job `b` with the same run instant do not conflict. -/
theorem checkAnyConflictedDags_ok_of_disjoint_names_witness :
    checkAnyConflictedDags [⟨"a", [1]⟩] [⟨"b", [1]⟩] = Except.ok () :=
  checkAnyConflictedDags_ok_of_disjoint_names [⟨"a", [1]⟩] [⟨"b", [1]⟩] (by decide)

/-- Claim C8: for a non-empty list of active records,
`validateReplayJobsConflict` rebuilds the (first) active record's
tree from that record's id, job, start date and end date combined
with the incoming request's project and jobSpecMap. -/
theorem validateReplayJobsConflict_uses_current_request_context
    (prepareTree : ReplayWorkerRequest → Except RError ReplayTree)
    (activeSpec : ReplaySpec) (rest : List ReplaySpec)
    (reqInput : ReplayWorkerRequest) (reqReplayNodes : List TreeNode) :
    validateReplayJobsConflict prepareTree (activeSpec :: rest) reqInput reqReplayNodes =
      match prepareTree
          { ID := activeSpec.ID
            Job := activeSpec.Job
            Start := activeSpec.StartDate
            End := activeSpec.EndDate
            Project := reqInput.Project
            JobSpecMap := reqInput.JobSpecMap } with
      | Except.error e => Except.error e
      | Except.ok activeTree =>
        checkAnyConflictedDags activeTree.GetAllNodes reqReplayNodes := rfl

/-- Claim C10: `NewManager` already calls `Init`, so `NumWorkers`
worker loops exist at construction, and one further `Init` call (as
the public contract instructs) doubles that to `2 * NumWorkers`. -/
theorem NewManager_then_Init_doubles_workers (config : ReplayManagerConfig) :
    (NewManager config).workers = config.NumWorkers ∧
    ((NewManager config).Init).workers = 2 * config.NumWorkers := by
  constructor
  · simp [NewManager, Manager.Init]
  · simp [NewManager, Manager.Init]
    omega

/-- Claim C1 (divergence): the claim requires `validate` to fail
whenever ANY active record's tree overlaps the request, but the loop
of `validateReplayJobsConflict` returns after its first iteration.
With a non-overlapping first active record and an overlapping second
one, `validate` succeeds, although the very same conflict check
applied to the second record alone reports the conflict. -/
theorem validate_misses_overlap_with_second_active_record :
    validate envTwoActive reqX = Except.ok () ∧
    validateReplayJobsConflict ptTwoJobs [specSecond] reqX [⟨"x", [1]⟩] =
      Except.error RError.conflictMsg :=
  ⟨rfl, rfl⟩

/-- Claim C2: when the conflict validator fails, `Replay` returns
exactly that error and has no side effect: the store, the request
queue, the request map and the caller's request are all unchanged;
consequently a record is only ever persisted for a request that
passed validation. -/
theorem Replay_no_side_effect_on_validate_error
    (env : ReplayEnv) (m : Manager) (reqInput : ReplayWorkerRequest) (e : RError)
    (h : validate env reqInput = Except.error e) :
    Replay env m reqInput = (Except.error e, m, reqInput) := by
  unfold Replay
  rw [h]

/-- Witness for C2: with an active conflicting replay in the store,
`Replay` returns the conflict error and changes nothing. -/
theorem Replay_no_side_effect_on_validate_error_witness :
    validate envConflict reqDemo = Except.error RError.conflictMsg ∧
    Replay envConflict mDemo reqDemo =
      (Except.error RError.conflictMsg, mDemo, reqDemo) :=
  ⟨rfl, Replay_no_side_effect_on_validate_error envConflict mDemo reqDemo
    RError.conflictMsg rfl⟩

/-- Claim C3: when no worker is free at the instant of the
non-blocking send, `Replay` returns `ErrRequestQueueFull`; the
record inserted just before remains in the store with status
`Accepted` (no rollback), nothing is handed to the queue, and the
id is not added to the request map. -/
theorem Replay_queue_full_keeps_record
    (env : ReplayEnv) (m : Manager) (reqInput : ReplayWorkerRequest) (u : UUID)
    (hval : validate env reqInput = Except.ok ())
    (hu : env.newUUID = Except.ok u)
    (hins : env.insertResult = none)
    (hq : env.queueFree = false) :
    Replay env m reqInput =
      (Except.error RError.requestQueueFull,
       { m with store := m.store ++
          [{ ID := u, Job := reqInput.Job, StartDate := reqInput.Start,
             EndDate := reqInput.End, Status := ReplayStatus.accepted }] },
       { reqInput with ID := u }) := by
  unfold Replay
  rw [hval, hu, hins, hq]
  rfl

/-- Witness for C3: in `envFull` (no active replays, no free worker)
`Replay` persists the `Accepted` record and returns
`ErrRequestQueueFull`, leaving queue and request map empty. -/
theorem Replay_queue_full_keeps_record_witness :
    validate envFull reqDemo = Except.ok () ∧
    Replay envFull mDemo reqDemo =
      (Except.error RError.requestQueueFull,
       { mDemo with store := mDemo.store ++
          [{ ID := ⟨7⟩, Job := reqDemo.Job, StartDate := reqDemo.Start,
             EndDate := reqDemo.End, Status := ReplayStatus.accepted }] },
       { reqDemo with ID := ⟨7⟩ }) :=
  ⟨rfl, Replay_queue_full_keeps_record envFull mDemo reqDemo ⟨7⟩ rfl rfl rfl rfl⟩

/-- Claim C4: after validation and id generation succeed, `Replay`
inserts exactly one record carrying the fresh id, the request's job
and dates, and status `Accepted`; and if the insert fails, `Replay`
returns the insert error with the manager state (store, queue,
request map) unchanged, so the request is never queued. -/
theorem Replay_inserts_accepted_record
    (env : ReplayEnv) (m : Manager) (reqInput : ReplayWorkerRequest) (u : UUID)
    (hval : validate env reqInput = Except.ok ())
    (hu : env.newUUID = Except.ok u) :
    (env.insertResult = none →
      (Replay env m reqInput).2.1.store = m.store ++
        [{ ID := u, Job := reqInput.Job, StartDate := reqInput.Start,
           EndDate := reqInput.End, Status := ReplayStatus.accepted }]) ∧
    (∀ e, env.insertResult = some e →
      Replay env m reqInput = (Except.error e, m, { reqInput with ID := u })) := by
  unfold Replay
  rw [hval, hu]
  constructor
  · intro hins
    rw [hins]
    cases hq : env.queueFree <;> simp [hq]
  · intro e hins
    rw [hins]

/-- Witness for C4: in `envInsertFail` the insert fails, `Replay`
returns that error and leaves the manager state unchanged. -/
theorem Replay_inserts_accepted_record_witness :
    Replay envInsertFail mDemo reqDemo =
      (Except.error (RError.otherErr 3), mDemo, { reqDemo with ID := ⟨7⟩ }) :=
  (Replay_inserts_accepted_record envInsertFail mDemo reqDemo ⟨7⟩ rfl rfl).2
    (RError.otherErr 3) rfl

/-- Claim C7: once the request's tree is built, `validate` treats
the store's not-found signal on the active-status query as success,
and propagates every other query error. -/
theorem validate_notFound_is_success_other_errors_propagate
    (env : ReplayEnv) (reqInput : ReplayWorkerRequest) (t : ReplayTree)
    (hp : env.prepareTree reqInput = Except.ok t) :
    (env.getByStatus [ReplayStatus.inProgress, ReplayStatus.accepted] =
        Except.error RError.resourceNotFound →
      validate env reqInput = Except.ok ()) ∧
    (∀ e, env.getByStatus [ReplayStatus.inProgress, ReplayStatus.accepted] =
        Except.error e →
      e ≠ RError.resourceNotFound →
      validate env reqInput = Except.error e) := by
  constructor
  · intro hg
    simp [validate, hp, hg]
  · intro e hg hne
    simp [validate, hp, hg, hne]

/-- Witness for C7: with `envFull`'s store answering not-found,
`validate` succeeds. -/
theorem validate_notFound_is_success_witness :
    validate envFull reqDemo = Except.ok () :=
  (validate_notFound_is_success_other_errors_propagate envFull reqDemo
    ⟨[⟨"x", [1]⟩]⟩ rfl).1 rfl

/-- Claim C9 (counterexample): the claim says the request's id stays
unset on EVERY error return, but the code assigns the id right after
generation, before the insert; on an insert failure `Replay` returns
an error while the caller's request now carries the generated id. -/
theorem Replay_id_set_despite_insert_error :
    (Replay envInsertFail mDemo reqDemo).1 = Except.error (RError.otherErr 3) ∧
    reqDemo.ID = nilUUID ∧
    (Replay envInsertFail mDemo reqDemo).2.2.ID ≠ nilUUID :=
  ⟨rfl, rfl, by decide⟩

/-- Claim C9 (amended): the request's id is unchanged when `Replay`
fails during validation or id generation, and equals the freshly
generated id in every other outcome (success, insert failure, queue
full) — it is assigned exactly once, immediately after generation. -/
theorem Replay_id_assignment (env : ReplayEnv) (m : Manager) (reqInput : ReplayWorkerRequest) :
    (Replay env m reqInput).2.2.ID =
      match validate env reqInput, env.newUUID with
      | Except.ok _, Except.ok u => u
      | _, _ => reqInput.ID := by
  unfold Replay
  cases validate env reqInput with
  | error e => rfl
  | ok _ =>
    cases env.newUUID with
    | error e => rfl
    | ok u =>
      cases env.insertResult with
      | some e => rfl
      | none =>
        cases env.queueFree with
        | false => rfl
        | true => rfl

end Optimus
